import Mathlib

/-!
Shallow embedding of the per-frame parameter synchronization pipeline of
`src/main.rs` (a Bevy application visualizing a Schwarzschild black hole).

Modelling conventions:
* `f32`/`f64` finite values are idealized as real numbers (exact arithmetic,
  no rounding or overflow).  Where IEEE-754 special values (NaN, ±infinity)
  decide a claim, computations are carried out in `F64`, a type of reals
  extended with `inf`, `ninf` and `nan`, whose operations follow the IEEE
  special-value rules (signed zero collapsed to zero).
* `glam` vector/quaternion operations (`normalize_or_zero`,
  `Quat::from_axis_angle`, `Quat::mul_vec3`, `length`) are translated from
  their scalar-source formulas.
* Bevy ECS queries are passed explicitly as lists of the queried components;
  resources are passed and returned explicitly.
* Window sizes and parsed numerals use `ℚ` so they stay kernel-computable.
-/

/- #region vector and quaternion math (glam) -/

structure Vec3 where
  x : ℝ
  y : ℝ
  z : ℝ

instance : Zero Vec3 := ⟨⟨0, 0, 0⟩⟩

instance : Add Vec3 := ⟨fun a b => ⟨a.x + b.x, a.y + b.y, a.z + b.z⟩⟩

instance : Sub Vec3 := ⟨fun a b => ⟨a.x - b.x, a.y - b.y, a.z - b.z⟩⟩

instance : SMul ℝ Vec3 := ⟨fun t v => ⟨t * v.x, t * v.y, t * v.z⟩⟩

def Vec3.dot (a b : Vec3) : ℝ := a.x * b.x + a.y * b.y + a.z * b.z

def Vec3.cross (a b : Vec3) : Vec3 :=
  ⟨a.y * b.z - a.z * b.y, a.z * b.x - a.x * b.z, a.x * b.y - a.y * b.x⟩

noncomputable def Vec3.length (v : Vec3) : ℝ := Real.sqrt (v.dot v)

/-- `glam`'s `Vec3::normalize_or_zero`: scale by the reciprocal length when it
is finite and positive, otherwise return the zero vector. -/
noncomputable def Vec3.normalize_or_zero (v : Vec3) : Vec3 :=
  if 0 < v.length then ((1 : ℝ) / v.length) • v else ⟨0, 0, 0⟩

structure Quat where
  x : ℝ
  y : ℝ
  z : ℝ
  w : ℝ

/-- `glam`'s `Quat::from_axis_angle`: `(axis * sin(angle/2), cos(angle/2))`. -/
noncomputable def Quat.from_axis_angle (axis : Vec3) (angle : ℝ) : Quat :=
  ⟨axis.x * Real.sin (angle / 2), axis.y * Real.sin (angle / 2),
   axis.z * Real.sin (angle / 2), Real.cos (angle / 2)⟩

/-- `glam`'s scalar `Quat::mul_vec3`:
`v*(w*w - b.b) + b*(v.b * 2) + (b × v)*(w * 2)` with `b` the vector part. -/
def Quat.mul_vec3 (q : Quat) (v : Vec3) : Vec3 :=
  let b : Vec3 := ⟨q.x, q.y, q.z⟩
  let b2 := b.dot b
  ((q.w * q.w - b2) • v) + ((2 * v.dot b) • b) + ((2 * q.w) • (b.cross v))

/- #endregion -/

/- #region unit conversion constants and functions (main.rs lines 37-47) -/

def NEWTON_CONSTANT : ℝ := 6.67e-11

def LIGHT_SPEED : ℝ := 299792458

/-- `length_to_si` (main.rs line 41):
`mass * ((val * NEWTON_CONSTANT / (LIGHT_SPEED * LIGHT_SPEED)) as f64)`. -/
noncomputable def length_to_si (val : ℝ) (mass : ℝ) : ℝ :=
  mass * (val * NEWTON_CONSTANT / (LIGHT_SPEED * LIGHT_SPEED))

/- #endregion -/

/- #region IEEE-754 special values -/

/-- An `f64` value idealized as an exact real extended with the IEEE special
values: `fin x` a finite value, `inf`/`ninf` the infinities, `nan`. -/
inductive F64 where
  | fin (x : ℝ)
  | inf
  | ninf
  | nan

noncomputable def F64.add : F64 → F64 → F64
  | nan, _ => nan
  | _, nan => nan
  | fin a, fin b => fin (a + b)
  | inf, ninf => nan
  | ninf, inf => nan
  | inf, _ => inf
  | _, inf => inf
  | ninf, _ => ninf
  | _, ninf => ninf

noncomputable def F64.sub : F64 → F64 → F64
  | nan, _ => nan
  | _, nan => nan
  | fin a, fin b => fin (a - b)
  | inf, inf => nan
  | ninf, ninf => nan
  | inf, _ => inf
  | _, inf => ninf
  | ninf, _ => ninf
  | _, ninf => inf

noncomputable def F64.mul : F64 → F64 → F64
  | nan, _ => nan
  | _, nan => nan
  | fin a, fin b => fin (a * b)
  | inf, fin b => if b = 0 then nan else if 0 < b then inf else ninf
  | fin a, inf => if a = 0 then nan else if 0 < a then inf else ninf
  | ninf, fin b => if b = 0 then nan else if 0 < b then ninf else inf
  | fin a, ninf => if a = 0 then nan else if 0 < a then ninf else inf
  | inf, inf => inf
  | ninf, ninf => inf
  | inf, ninf => ninf
  | ninf, inf => ninf

noncomputable def F64.div : F64 → F64 → F64
  | nan, _ => nan
  | _, nan => nan
  | fin a, fin b =>
      if b = 0 then (if 0 < a then inf else if a < 0 then ninf else nan)
      else fin (a / b)
  | fin _, inf => fin 0
  | fin _, ninf => fin 0
  | inf, fin b => if 0 ≤ b then inf else ninf
  | ninf, fin b => if 0 ≤ b then ninf else inf
  | inf, inf => nan
  | inf, ninf => nan
  | ninf, inf => nan
  | ninf, ninf => nan

/-- IEEE `sqrt`: NaN on negative input. -/
noncomputable def F64.sqrt : F64 → F64
  | nan => nan
  | fin x => if x < 0 then nan else fin (Real.sqrt x)
  | inf => inf
  | ninf => nan

/-- IEEE `ln`: NaN on negative input, `-inf` at zero. -/
noncomputable def F64.ln : F64 → F64
  | nan => nan
  | fin x => if x < 0 then nan else if x = 0 then ninf else fin (Real.log x)
  | inf => inf
  | ninf => nan

/-- `time_to_geo` (main.rs line 45):
`(val * LIGHT_SPEED.powf(3.) / NEWTON_CONSTANT) as f64 / mass`.  The `f32`
numerator is a finite real; the final `f64` division carries the IEEE
special-value semantics (division by a zero mass). -/
noncomputable def time_to_geo (val : ℝ) (mass : ℝ) : F64 :=
  F64.div (F64.fin (val * LIGHT_SPEED ^ 3 / NEWTON_CONSTANT)) (F64.fin mass)

/-- `length_to_si` applied to a possibly-NaN `f32` value, as in the display
stage; operations follow the source expression with IEEE semantics. -/
noncomputable def length_to_siF (val : F64) (mass : ℝ) : F64 :=
  F64.mul (F64.fin mass)
    (F64.div (F64.mul val (F64.fin NEWTON_CONSTANT))
      (F64.fin (LIGHT_SPEED * LIGHT_SPEED)))

/- #endregion -/

/- #region camera frame builder (main.rs lines 129-138) -/

/-- `get_cam_axis` (main.rs lines 129-138), returning `(cam_x, cam_y, cam_z)`:
right, up and facing direction. -/
noncomputable def get_cam_axis (pos target : Vec3) : Vec3 × Vec3 × Vec3 :=
  let cam_z := (target - pos).normalize_or_zero
  let xz := (Vec3.mk cam_z.x 0 cam_z.z).normalize_or_zero
  let cam_x := (Quat.from_axis_angle ⟨0, 1, 0⟩ (-(Real.pi / 2))).mul_vec3 xz
  let cam_y := (Quat.from_axis_angle cam_x (Real.pi / 2)).mul_vec3 cam_z
  (cam_x, cam_y, cam_z)

/- #endregion -/

/- #region shared state records (main.rs lines 572-578, 602-608, 648-659) -/

structure WindowData where
  x : ℕ
  y : ℕ
  width : ℕ
  height : ℕ

structure CamData where
  cam_pos : Vec3
  cam_x : Vec3
  cam_y : Vec3
  cam_z : Vec3

structure SpacetimeParams where
  mass : ℝ

noncomputable def SpacetimeParams.default : SpacetimeParams := ⟨1e34⟩

/- #endregion -/

/- #region window stage (main.rs lines 580-598) -/

inductive WindowPosition where
  | Automatic
  | Centered
  | At (px py : Int)

structure Window where
  position : WindowPosition
  width : ℚ
  height : ℚ

/-- Rust's saturating `as u32` cast from a finite float: truncate toward zero,
clamp to `[0, u32::MAX]`. -/
def rustCastU32 (q : ℚ) : ℕ := min (Int.toNat ⌊q⌋) (2 ^ 32 - 1)

/-- `update_window_data` (main.rs lines 580-598). -/
def update_window_data (window : Window) (_window_data : WindowData) : WindowData :=
  let width := window.width
  let height := window.height
  let xy : ℚ × ℚ :=
    match window.position with
    | WindowPosition.At px py => ((px : ℚ), (py : ℚ))
    | _ => (0, 0)
  ⟨rustCastU32 xy.1, rustCastU32 xy.2, rustCastU32 width, rustCastU32 height⟩

/- #endregion -/

/- #region camera stage (main.rs lines 610-622) -/

structure LookTransform where
  eye : Vec3
  target : Vec3
  up : Vec3

/-- `update_camera_data` (main.rs lines 610-622): `get_single_mut` succeeds
exactly when the query matches a single `LookTransform`; otherwise the stage
leaves `CamData` untouched. -/
noncomputable def update_camera_data (cams : List LookTransform) (cam_data : CamData) : CamData :=
  match cams with
  | [transform] =>
      let axes := get_cam_axis transform.eye transform.target
      ⟨transform.eye, axes.1, axes.2.1, axes.2.2⟩
  | _ => cam_data

/- #endregion -/

/- #region spacetime-parameter stage (main.rs lines 661-671) -/

def natOfDigits (l : List Char) : ℕ :=
  l.foldl (fun a c => 10 * a + (c.toNat - Char.toNat '0')) 0

/-- The result of a successful Rust `f64` parse: either an exact finite
numeral or one of the IEEE special values the grammar's `'inf' | 'infinity' |
'nan'` alternatives produce. -/
inductive RustF64 where
  | finite (q : ℚ)
  | inf
  | ninf
  | nan
deriving DecidableEq

/-- The `f64` value (in the `F64` model) a successful parse yields. -/
noncomputable def RustF64.toF64 : RustF64 → F64
  | finite q => F64.fin (q : ℝ)
  | inf => F64.inf
  | ninf => F64.ninf
  | nan => F64.nan

/-- Rust's `str::parse::<f64>` grammar: an optional sign followed by either
the case-insensitive special values `inf` / `infinity` / `nan`, or a decimal
numeral with optional fraction and optional decimal exponent; the finite
numeral is taken exactly as a rational.  Returns `none` exactly when Rust's
parse returns `Err`. -/
def parseF64 (s : String) : Option RustF64 :=
  let cs := s.toList
  let signAndRest : Bool × List Char :=
    match cs with
    | '+' :: r => (false, r)
    | '-' :: r => (true, r)
    | r => (false, r)
  let isNeg := signAndRest.1
  let cs1 := signAndRest.2
  let low := cs1.map Char.toLower
  if low = ['i', 'n', 'f'] ∨ low = ['i', 'n', 'f', 'i', 'n', 'i', 't', 'y'] then
    some (if isNeg then RustF64.ninf else RustF64.inf)
  else if low = ['n', 'a', 'n'] then
    some RustF64.nan
  else
  let sign : ℚ := if isNeg then -1 else 1
  let intPart := cs1.takeWhile Char.isDigit
  let cs2 := cs1.dropWhile Char.isDigit
  let fracAndRest : List Char × List Char × Bool :=
    match cs2 with
    | '.' :: r => (r.takeWhile Char.isDigit, r.dropWhile Char.isDigit, true)
    | r => ([], r, false)
  let fracPart := fracAndRest.1
  let cs3 := fracAndRest.2.1
  let mantissaOk := !intPart.isEmpty || !fracPart.isEmpty
  let mant : ℚ :=
    sign * ((natOfDigits intPart : ℚ) + (natOfDigits fracPart : ℚ) / ((10 ^ fracPart.length : ℕ) : ℚ))
  match cs3 with
  | [] => if mantissaOk then some (RustF64.finite mant) else none
  | 'e' :: r =>
      let esignAndRest : Bool × List Char :=
        match r with
        | '+' :: t => (false, t)
        | '-' :: t => (true, t)
        | t => (false, t)
      let eDigits := esignAndRest.2.takeWhile Char.isDigit
      let rest := esignAndRest.2.dropWhile Char.isDigit
      if mantissaOk && !eDigits.isEmpty && rest.isEmpty then
        some (RustF64.finite
          (if esignAndRest.1 then mant / ((10 ^ natOfDigits eDigits : ℕ) : ℚ)
           else mant * ((10 ^ natOfDigits eDigits : ℕ) : ℚ)))
      else none
  | 'E' :: r =>
      let esignAndRest : Bool × List Char :=
        match r with
        | '+' :: t => (false, t)
        | '-' :: t => (true, t)
        | t => (false, t)
      let eDigits := esignAndRest.2.takeWhile Char.isDigit
      let rest := esignAndRest.2.dropWhile Char.isDigit
      if mantissaOk && !eDigits.isEmpty && rest.isEmpty then
        some (RustF64.finite
          (if esignAndRest.1 then mant / ((10 ^ natOfDigits eDigits : ℕ) : ℚ)
           else mant * ((10 ^ natOfDigits eDigits : ℕ) : ℚ)))
      else none
  | _ => none

def containsSub (needle : List Char) : List Char → Bool
  | [] => needle.isEmpty
  | c :: t => needle.isPrefixOf (c :: t) || containsSub needle t

/-- Bevy's `Name::contains`, i.e. `str::contains` with a string pattern:
substring containment. -/
def nameContains (name pat : String) : Bool := containsSub pat.toList name.toList

/-- The spacetime-parameter record at full `f64` fidelity: the `mass` field
can hold the IEEE special values a successful parse may produce.  The
real-valued `SpacetimeParams` record is its finite idealization, used by the
stages whose claims only concern finite masses. -/
structure SpacetimeParamsF where
  mass : F64

/-- `update_spacetime_params` (main.rs lines 661-671): every queried
`(TextInputValue, Name)` pair whose name contains `"SpacetimeParamsM"` has its
text parsed; `unwrap_or(0.)` substitutes `0` on parse failure; the resulting
`f64` (finite, ±infinity or NaN) is written to the record's `mass`. -/
noncomputable def update_spacetime_params (query : List (String × String))
    (spacetime_params : SpacetimeParamsF) : SpacetimeParamsF :=
  query.foldl
    (fun acc ti =>
      if nameContains ti.2 "SpacetimeParamsM" then
        ⟨((parseF64 ti.1).getD (RustF64.finite 0)).toF64⟩
      else acc)
    spacetime_params

/- #endregion -/

/- #region display stage (main.rs lines 629-644) -/

/-- `update_position_text` (main.rs lines 629-644), returning the text written
to the `PositionText` section.  `fmt` abstracts Rust's `Display` formatting of
an `f64` value. -/
noncomputable def update_position_text (fmt : F64 → String) (cam_data : CamData)
    (spacetime_params : SpacetimeParams) : String :=
  let rs := length_to_siF (F64.fin 2) spacetime_params.mass
  let r := cam_data.cam_pos.length
  let delta_r := length_to_siF (F64.sub (F64.fin r) (F64.fin 2)) spacetime_params.mass
  let proper_length := length_to_siF
    (F64.add
      (F64.mul (F64.sqrt (F64.fin r)) (F64.sqrt (F64.sub (F64.fin r) (F64.fin 2))))
      (F64.ln
        (F64.sub
          (F64.add (F64.fin r)
            (F64.mul (F64.sqrt (F64.fin r)) (F64.sqrt (F64.sub (F64.fin r) (F64.fin 2)))))
          (F64.fin 1))))
    spacetime_params.mass
  "Schwarzschild radius: " ++ fmt rs ++
    "\nDifference in r from event horizon: " ++ fmt delta_r ++
    " m\nProper distance from event horizon: " ++ fmt proper_length ++ " m"

/- #endregion -/

/- #region update schedule (main.rs line 25) -/

inductive SystemId where
  | focus
  | update_window_data
  | update_material
  | update_camera_data
  | update_position_text
  | update_spacetime_params
deriving DecidableEq

/-- The `Update` systems exactly as registered by
`add_systems(Update, (focus, update_window_data, update_material,
update_camera_data, update_position_text, update_spacetime_params))`. -/
def updateSystems : List SystemId :=
  [SystemId.focus, SystemId.update_window_data, SystemId.update_material,
   SystemId.update_camera_data, SystemId.update_position_text,
   SystemId.update_spacetime_params]

/-- Ordering constraints declared on the `Update` systems: the source attaches
no `.chain()`, `.before(..)` or `.after(..)` to the tuple, so the set is
empty. -/
def systemOrderingConstraints : List (SystemId × SystemId) := []

/-- A frame execution order Bevy's scheduler may choose: any permutation of
the registered systems respecting every declared ordering constraint. -/
def validSchedule (l : List SystemId) : Prop :=
  l.Perm updateSystems ∧
    ∀ c ∈ systemOrderingConstraints, l.indexOf c.1 < l.indexOf c.2

/- #endregion -/

/- #region basic component lemmas -/

@[simp] theorem Vec3.zero_x : (0 : Vec3).x = 0 := rfl

@[simp] theorem Vec3.zero_y : (0 : Vec3).y = 0 := rfl

@[simp] theorem Vec3.zero_z : (0 : Vec3).z = 0 := rfl

@[simp] theorem Vec3.add_x (a b : Vec3) : (a + b).x = a.x + b.x := rfl

@[simp] theorem Vec3.add_y (a b : Vec3) : (a + b).y = a.y + b.y := rfl

@[simp] theorem Vec3.add_z (a b : Vec3) : (a + b).z = a.z + b.z := rfl

@[simp] theorem Vec3.sub_x (a b : Vec3) : (a - b).x = a.x - b.x := rfl

@[simp] theorem Vec3.sub_y (a b : Vec3) : (a - b).y = a.y - b.y := rfl

@[simp] theorem Vec3.sub_z (a b : Vec3) : (a - b).z = a.z - b.z := rfl

@[simp] theorem Vec3.smul_x (t : ℝ) (v : Vec3) : (t • v).x = t * v.x := rfl

@[simp] theorem Vec3.smul_y (t : ℝ) (v : Vec3) : (t • v).y = t * v.y := rfl

@[simp] theorem Vec3.smul_z (t : ℝ) (v : Vec3) : (t • v).z = t * v.z := rfl

theorem Vec3.eq_mk (a : Vec3) : a = ⟨a.x, a.y, a.z⟩ := rfl

/- #endregion -/

/-- C1: the claim asserts the window, camera and spacetime-parameter stages
complete before the export stage (`update_material`) reads the shared records.
The source registers the six `Update` systems as a plain tuple with no
ordering constraints, so the registration order itself — which runs
`update_material` *before* `update_camera_data` and
`update_spacetime_params` — is a schedule the engine may execute: the claimed
ordering is not enforced. -/
theorem update_schedule_allows_export_before_inputs :
    validSchedule updateSystems ∧
    updateSystems.indexOf SystemId.update_material <
      updateSystems.indexOf SystemId.update_camera_data ∧
    updateSystems.indexOf SystemId.update_material <
      updateSystems.indexOf SystemId.update_spacetime_params := by
  refine ⟨⟨List.Perm.refl _, ?_⟩, ?_, ?_⟩
  · intro c hc
    simp [systemOrderingConstraints] at hc
  · decide
  · decide

/-- C9: when no camera widget (`LookTransform`) matches the query, the camera
stage leaves every field of the camera record exactly as it was. -/
theorem update_camera_data_absent_noop (cam_data : CamData) :
    update_camera_data [] cam_data = cam_data := rfl

/-- C10: when the OS window's position is not an explicit `WindowPosition::At`
value, the window stage stores `x = 0`, `y = 0`, and the window's current
size truncated (with saturation) to `u32`. -/
theorem update_window_data_non_at_zero (window : Window) (wd : WindowData)
    (h : ∀ px py : Int, window.position ≠ WindowPosition.At px py) :
    (update_window_data window wd).x = 0 ∧
    (update_window_data window wd).y = 0 ∧
    (update_window_data window wd).width = min (Int.toNat ⌊window.width⌋) (2 ^ 32 - 1) ∧
    (update_window_data window wd).height = min (Int.toNat ⌊window.height⌋) (2 ^ 32 - 1) := by
  cases hp : window.position with
  | At px py => exact absurd hp (h px py)
  | Automatic => simp [update_window_data, hp, rustCastU32]
  | Centered => simp [update_window_data, hp, rustCastU32]

/-- Witness for C10 at a concrete window: automatic position, size 800×600. -/
theorem update_window_data_non_at_zero_witness :
    (update_window_data ⟨WindowPosition.Automatic, 800, 600⟩ ⟨1, 2, 3, 4⟩).x = 0 ∧
    (update_window_data ⟨WindowPosition.Automatic, 800, 600⟩ ⟨1, 2, 3, 4⟩).y = 0 ∧
    (update_window_data ⟨WindowPosition.Automatic, 800, 600⟩ ⟨1, 2, 3, 4⟩).width = 800 ∧
    (update_window_data ⟨WindowPosition.Automatic, 800, 600⟩ ⟨1, 2, 3, 4⟩).height = 600 := by
  have h := update_window_data_non_at_zero ⟨WindowPosition.Automatic, 800, 600⟩ ⟨1, 2, 3, 4⟩
    (fun px py hpq => by cases hpq)
  exact ⟨h.1, h.2.1, h.2.2.1.trans (by decide), h.2.2.2.trans (by decide)⟩

/-- C5: in the spacetime-parameter stage, for every text value of the mass
field: if the string parses as a float64 (finite numeral, or an `inf` /
`infinity` / `nan` alternative) the parsed value is assigned to the record's
mass — `"5e30"` yields exactly `5e30` (and `"inf"` yields `+infinity`) — and
if parsing fails, `0` is assigned (`"abc"` yields `mass = 0`), with no error
raised. -/
theorem update_spacetime_params_parse (txt : String) (p : SpacetimeParamsF) :
    ((∀ v : RustF64, parseF64 txt = some v →
        (update_spacetime_params [(txt, "SpacetimeParamsM")] p).mass = v.toF64) ∧
      (parseF64 txt = none →
        (update_spacetime_params [(txt, "SpacetimeParamsM")] p).mass = F64.fin 0)) ∧
    parseF64 "5e30" = some (RustF64.finite ((5 * 10 ^ 30 : ℕ) : ℚ)) ∧
    parseF64 "abc" = none ∧
    parseF64 "inf" = some RustF64.inf := by
  have hname : nameContains "SpacetimeParamsM" "SpacetimeParamsM" = true := by decide
  refine ⟨⟨?_, ?_⟩, ?_, ?_, ?_⟩
  · intro v hv
    simp [update_spacetime_params, hname, hv]
  · intro hq
    simp [update_spacetime_params, hname, hq, RustF64.toF64]
  · simp +decide [parseF64, natOfDigits]
    norm_num
  · simp +decide [parseF64]
  · simp +decide [parseF64]

/-- Witness for C5: the three concrete inputs — a finite numeral, an
unparsable string, and the `inf` special value. -/
theorem update_spacetime_params_parse_witness :
    (update_spacetime_params [("5e30", "SpacetimeParamsM")] ⟨F64.fin 1e34⟩).mass =
      (RustF64.finite ((5 * 10 ^ 30 : ℕ) : ℚ)).toF64 ∧
    (update_spacetime_params [("abc", "SpacetimeParamsM")] ⟨F64.fin 1e34⟩).mass =
      F64.fin 0 ∧
    (update_spacetime_params [("inf", "SpacetimeParamsM")] ⟨F64.fin 1e34⟩).mass =
      F64.inf :=
  ⟨(update_spacetime_params_parse "5e30" ⟨F64.fin 1e34⟩).1.1
      (RustF64.finite ((5 * 10 ^ 30 : ℕ) : ℚ))
      (update_spacetime_params_parse "5e30" ⟨F64.fin 1e34⟩).2.1,
    (update_spacetime_params_parse "abc" ⟨F64.fin 1e34⟩).1.2
      (update_spacetime_params_parse "abc" ⟨F64.fin 1e34⟩).2.2.1,
    (update_spacetime_params_parse "inf" ⟨F64.fin 1e34⟩).1.1 RustF64.inf
      (update_spacetime_params_parse "inf" ⟨F64.fin 1e34⟩).2.2.2⟩

/-- C6 counterexample: the claim quantifies over *every* value `v`, but at
`v = 0` the numerator is `0` and IEEE `0 / 0` is NaN, not infinity.  (`v = 0`
is reached in the program: `time.elapsed_seconds()` is `0` on the first
frame.) -/
theorem time_to_geo_zero_val_nan :
    time_to_geo 0 0 = F64.nan ∧ F64.nan ≠ F64.inf := by
  constructor
  · simp [time_to_geo, F64.div]
  · intro h
    cases h

/-- C6 amended: for every *positive* value `v`, `time_to_geo(v, 0)` is
`+infinity` — a defined floating-point result, not an error. -/
theorem time_to_geo_pos_val_zero_mass_inf (v : ℝ) (h : 0 < v) :
    time_to_geo v 0 = F64.inf := by
  have hc : (0 : ℝ) < LIGHT_SPEED ^ 3 / NEWTON_CONSTANT := by
    unfold LIGHT_SPEED NEWTON_CONSTANT
    positivity
  have hnum : 0 < v * LIGHT_SPEED ^ 3 / NEWTON_CONSTANT := by
    have := mul_pos h hc
    calc (0 : ℝ) < v * (LIGHT_SPEED ^ 3 / NEWTON_CONSTANT) := this
      _ = v * LIGHT_SPEED ^ 3 / NEWTON_CONSTANT := by ring
  simp [time_to_geo, F64.div, hnum]

/-- Witness for C6 (amended) at `v = 1`. -/
theorem time_to_geo_pos_val_zero_mass_inf_witness :
    (0 : ℝ) < 1 ∧ time_to_geo 1 0 = F64.inf :=
  ⟨by norm_num, time_to_geo_pos_val_zero_mass_inf 1 (by norm_num)⟩

/-- C7 counterexample: with `mass = 0` a negative value produces `0`, not a
negative output, so "negative v produces negative output" fails as a claim
over every mass. -/
theorem length_to_si_neg_val_zero_mass :
    length_to_si (-1) 0 = 0 ∧ ¬ length_to_si (-1) 0 < 0 := by
  constructor
  · simp [length_to_si]
  · simp [length_to_si]

/-- C7 amended: `length_to_si` is exactly `mass * (val * G / c²)` with
`G = 6.67e-11` and `c = 299792458`; it is total (never errors), a zero mass
produces `0`, and a negative value produces a negative output whenever the
mass is positive. -/
theorem length_to_si_spec (v m : ℝ) :
    length_to_si v m = m * (v * 6.67e-11 / ((299792458 : ℝ) * 299792458)) ∧
    length_to_si v 0 = 0 ∧
    (v < 0 → 0 < m → length_to_si v m < 0) := by
  refine ⟨rfl, by simp [length_to_si], ?_⟩
  intro hv hm
  have hG : (0 : ℝ) < NEWTON_CONSTANT := by unfold NEWTON_CONSTANT; norm_num
  have hc : (0 : ℝ) < LIGHT_SPEED * LIGHT_SPEED := by unfold LIGHT_SPEED; norm_num
  have hnum : v * NEWTON_CONSTANT / (LIGHT_SPEED * LIGHT_SPEED) < 0 :=
    div_neg_of_neg_of_pos (mul_neg_of_neg_of_pos hv hG) hc
  exact mul_neg_of_pos_of_neg hm hnum

/-- Witness for C7 (amended) at `v = -1`, `m = 1`. -/
theorem length_to_si_spec_witness :
    length_to_si (-1) 1 = 1 * ((-1) * 6.67e-11 / ((299792458 : ℝ) * 299792458)) ∧
    length_to_si (-1) 0 = 0 ∧ length_to_si (-1) 1 < 0 :=
  ⟨(length_to_si_spec (-1) 1).1, (length_to_si_spec (-1) 0).2.1,
    (length_to_si_spec (-1) 1).2.2 (by norm_num) (by norm_num)⟩

/- #region camera frame lemmas -/

theorem Vec3.eq_of_comps (a b : Vec3) (hx : a.x = b.x) (hy : a.y = b.y)
    (hz : a.z = b.z) : a = b := by
  cases a
  cases b
  simp only at hx hy hz
  rw [hx, hy, hz]

theorem Vec3.dot_self_nonneg (v : Vec3) : 0 ≤ v.dot v :=
  add_nonneg (add_nonneg (mul_self_nonneg v.x) (mul_self_nonneg v.y))
    (mul_self_nonneg v.z)

theorem Vec3.mul_self_length (v : Vec3) : v.length * v.length = v.dot v :=
  Real.mul_self_sqrt (Vec3.dot_self_nonneg v)

theorem Vec3.length_pos (v : Vec3) (h : 0 < v.dot v) : 0 < v.length :=
  Real.sqrt_pos.mpr h

theorem Vec3.normalize_of_pos (v : Vec3) (h : 0 < v.length) :
    v.normalize_or_zero = ((1 : ℝ) / v.length) • v := if_pos h

theorem Vec3.normalize_dot_self (v : Vec3) (h : 0 < v.dot v) :
    v.normalize_or_zero.dot v.normalize_or_zero = 1 := by
  have hL := Vec3.length_pos v h
  have hL2 := Vec3.mul_self_length v
  rw [Vec3.normalize_of_pos v hL]
  simp only [Vec3.dot, Vec3.smul_x, Vec3.smul_y, Vec3.smul_z] at hL2 ⊢
  field_simp
  linarith

theorem Vec3.normalize_zero_vec : (Vec3.mk 0 0 0).normalize_or_zero = ⟨0, 0, 0⟩ := by
  unfold Vec3.normalize_or_zero
  rw [if_neg]
  simp [Vec3.length, Vec3.dot]

theorem Vec3.cross_dot_self_left (a b : Vec3) : a.dot (a.cross b) = 0 := by
  simp only [Vec3.dot, Vec3.cross]
  ring

theorem Vec3.cross_dot_self_right (a b : Vec3) : b.dot (a.cross b) = 0 := by
  simp only [Vec3.dot, Vec3.cross]
  ring

theorem Vec3.cross_dot_cross (a b : Vec3) :
    (a.cross b).dot (a.cross b) = a.dot a * b.dot b - a.dot b * (a.dot b) := by
  simp only [Vec3.dot, Vec3.cross]
  ring

theorem Quat.mul_vec3_zero_vec (q : Quat) : q.mul_vec3 ⟨0, 0, 0⟩ = ⟨0, 0, 0⟩ := by
  apply Vec3.eq_of_comps <;>
    simp only [Quat.mul_vec3, Vec3.dot, Vec3.cross, Vec3.add_x, Vec3.add_y,
      Vec3.add_z, Vec3.smul_x, Vec3.smul_y, Vec3.smul_z] <;>
    ring

theorem Quat.from_axis_zero_mul_vec3 (angle : ℝ) (v : Vec3) :
    (Quat.from_axis_angle ⟨0, 0, 0⟩ angle).mul_vec3 v =
      (Real.cos (angle / 2) * Real.cos (angle / 2)) • v := by
  apply Vec3.eq_of_comps <;>
    simp only [Quat.mul_vec3, Quat.from_axis_angle, Vec3.dot, Vec3.cross,
      Vec3.add_x, Vec3.add_y, Vec3.add_z, Vec3.smul_x, Vec3.smul_y, Vec3.smul_z] <;>
    ring

theorem cos_pi_div_four_mul_self :
    Real.cos (Real.pi / 4) * Real.cos (Real.pi / 4) = 1 / 2 := by
  rw [Real.cos_pi_div_four]
  have h2 : Real.sqrt 2 * Real.sqrt 2 = 2 := Real.mul_self_sqrt (by norm_num)
  linear_combination h2 / 4

theorem rotY_neg_half_pi_mul_vec3 (v : Vec3) (hv : v.y = 0) :
    (Quat.from_axis_angle ⟨0, 1, 0⟩ (-(Real.pi / 2))).mul_vec3 v = ⟨-v.z, 0, v.x⟩ := by
  have hangle : -(Real.pi / 2) / 2 = -(Real.pi / 4) := by ring
  have hs : Real.sin (-(Real.pi / 2) / 2) = -(Real.sqrt 2 / 2) := by
    rw [hangle, Real.sin_neg, Real.sin_pi_div_four]
  have hc : Real.cos (-(Real.pi / 2) / 2) = Real.sqrt 2 / 2 := by
    rw [hangle, Real.cos_neg, Real.cos_pi_div_four]
  have h2 : Real.sqrt 2 * Real.sqrt 2 = 2 := Real.mul_self_sqrt (by norm_num)
  apply Vec3.eq_of_comps <;>
    simp only [Quat.mul_vec3, Quat.from_axis_angle, Vec3.dot, Vec3.cross,
      Vec3.add_x, Vec3.add_y, Vec3.add_z, Vec3.smul_x, Vec3.smul_y, Vec3.smul_z,
      hs, hc, hv]
  · linear_combination (-v.z / 2) * h2
  · ring
  · linear_combination (v.x / 2) * h2

theorem rot_axis_half_pi_mul_vec3 (a v : Vec3) (ha : a.dot a = 1)
    (hav : v.dot a = 0) :
    (Quat.from_axis_angle a (Real.pi / 2)).mul_vec3 v = a.cross v := by
  have hangle : Real.pi / 2 / 2 = Real.pi / 4 := by ring
  have hs : Real.sin (Real.pi / 2 / 2) = Real.sqrt 2 / 2 := by
    rw [hangle, Real.sin_pi_div_four]
  have hc : Real.cos (Real.pi / 2 / 2) = Real.sqrt 2 / 2 := by
    rw [hangle, Real.cos_pi_div_four]
  have h2 : Real.sqrt 2 * Real.sqrt 2 = 2 := Real.mul_self_sqrt (by norm_num)
  have ha' : a.x * a.x + a.y * a.y + a.z * a.z = 1 := ha
  have hav' : v.x * a.x + v.y * a.y + v.z * a.z = 0 := hav
  apply Vec3.eq_of_comps <;>
    simp only [Quat.mul_vec3, Quat.from_axis_angle, Vec3.dot, Vec3.cross,
      Vec3.add_x, Vec3.add_y, Vec3.add_z, Vec3.smul_x, Vec3.smul_y, Vec3.smul_z,
      hs, hc]
  · linear_combination (-(Real.sqrt 2 * Real.sqrt 2 / 4) * v.x) * ha' +
      (Real.sqrt 2 * Real.sqrt 2 / 2 * a.x) * hav' +
      ((a.y * v.z - a.z * v.y) / 2) * h2
  · linear_combination (-(Real.sqrt 2 * Real.sqrt 2 / 4) * v.y) * ha' +
      (Real.sqrt 2 * Real.sqrt 2 / 2 * a.y) * hav' +
      ((a.z * v.x - a.x * v.z) / 2) * h2
  · linear_combination (-(Real.sqrt 2 * Real.sqrt 2 / 4) * v.z) * ha' +
      (Real.sqrt 2 * Real.sqrt 2 / 2 * a.z) * hav' +
      ((a.x * v.y - a.y * v.x) / 2) * h2

/- #endregion -/

theorem Vec3.dot_comm (a b : Vec3) : a.dot b = b.dot a := by
  simp only [Vec3.dot]
  ring

/-- C4: `get_cam_axis(p, p)` returns the zero vector for forward, right and
up — `normalize_or_zero` takes its zero branch and no division by the zero
length ever happens, so (in the real-valued model) no NaN arises and the
function is total. -/
theorem get_cam_axis_eye_eq_target (p : Vec3) :
    get_cam_axis p p = ((⟨0, 0, 0⟩ : Vec3), (⟨0, 0, 0⟩ : Vec3), (⟨0, 0, 0⟩ : Vec3)) := by
  have hd : p - p = Vec3.mk 0 0 0 :=
    Vec3.eq_of_comps _ _ (by simp) (by simp) (by simp)
  simp only [get_cam_axis, hd, Vec3.normalize_zero_vec, Quat.mul_vec3_zero_vec]

/-- C2 counterexample: for the purely vertical non-zero view direction
`eye = (0,0,0)`, `target = (0,1,0)` the claim asserts all three outputs are
the zero vector, but `forward` is the (non-zero) unit vertical vector. -/
theorem get_cam_axis_vertical_forward_nonzero :
    (get_cam_axis ⟨0, 0, 0⟩ ⟨0, 1, 0⟩).2.2 = ⟨0, 1, 0⟩ ∧
    Vec3.mk 0 1 0 ≠ ⟨0, 0, 0⟩ := by
  constructor
  · have hd : (Vec3.mk 0 1 0) - ⟨0, 0, 0⟩ = Vec3.mk 0 1 0 :=
      Vec3.eq_of_comps _ _ (by simp) (by simp) (by simp)
    have hL : (Vec3.mk 0 1 0).length = 1 := by
      simp [Vec3.length, Vec3.dot]
    have hnorm : (Vec3.mk 0 1 0).normalize_or_zero = Vec3.mk 0 1 0 := by
      rw [Vec3.normalize_of_pos _ (by rw [hL]; norm_num), hL]
      exact Vec3.eq_of_comps _ _ (by simp) (by simp) (by simp)
    simp only [get_cam_axis, hd, hnorm]
  · intro h
    have := congrArg Vec3.y h
    simp at this

/-- C2 amended: for a non-zero but purely vertical view direction, only
`right` degenerates to the zero vector; `forward` is the (non-zero) unit
vertical vector and `up` is `forward / 2` (also non-zero), because rotating
about the degenerate zero `right` axis scales by `cos²(π/4) = 1/2`. -/
theorem get_cam_axis_vertical (pos target : Vec3)
    (hx : (target - pos).x = 0) (hz : (target - pos).z = 0)
    (hy : (target - pos).y ≠ 0) :
    (get_cam_axis pos target).1 = ⟨0, 0, 0⟩ ∧
    (get_cam_axis pos target).2.1 = ((1 : ℝ) / 2) • (get_cam_axis pos target).2.2 ∧
    (get_cam_axis pos target).2.2 ≠ ⟨0, 0, 0⟩ := by
  have hdot : 0 < (target - pos).dot (target - pos) := by
    have he : (target - pos).dot (target - pos) =
        (target - pos).y * (target - pos).y := by
      simp only [Vec3.dot, hx, hz]
      ring
    rw [he]
    exact mul_self_pos.mpr hy
  have hL : 0 < (target - pos).length := Vec3.length_pos _ hdot
  have hnorm := Vec3.normalize_of_pos _ hL
  have hczx : ((target - pos).normalize_or_zero).x = 0 := by
    rw [hnorm]
    simp [hx]
  have hczz : ((target - pos).normalize_or_zero).z = 0 := by
    rw [hnorm]
    simp [hz]
  have hczy : ((target - pos).normalize_or_zero).y ≠ 0 := by
    rw [hnorm]
    simp only [Vec3.smul_y]
    exact mul_ne_zero (one_div_ne_zero (ne_of_gt hL)) hy
  have hmkzero : Vec3.mk ((target - pos).normalize_or_zero).x 0
      ((target - pos).normalize_or_zero).z = Vec3.mk 0 0 0 := by
    rw [hczx, hczz]
  have hangle : Real.pi / 2 / 2 = Real.pi / 4 := by ring
  simp only [get_cam_axis, hmkzero, Vec3.normalize_zero_vec,
    Quat.mul_vec3_zero_vec, Quat.from_axis_zero_mul_vec3, hangle,
    cos_pi_div_four_mul_self]
  refine ⟨trivial, trivial, ?_⟩
  intro h
  exact hczy (by rw [h])

/-- Witness for C2 (amended) at `eye = (0,0,0)`, `target = (0,3,0)`. -/
theorem get_cam_axis_vertical_witness :
    (get_cam_axis ⟨0, 0, 0⟩ ⟨0, 3, 0⟩).1 = ⟨0, 0, 0⟩ ∧
    (get_cam_axis ⟨0, 0, 0⟩ ⟨0, 3, 0⟩).2.1 =
      ((1 : ℝ) / 2) • (get_cam_axis ⟨0, 0, 0⟩ ⟨0, 3, 0⟩).2.2 ∧
    (get_cam_axis ⟨0, 0, 0⟩ ⟨0, 3, 0⟩).2.2 ≠ ⟨0, 0, 0⟩ :=
  get_cam_axis_vertical ⟨0, 0, 0⟩ ⟨0, 3, 0⟩
    (show (0 : ℝ) - 0 = 0 by norm_num)
    (show (0 : ℝ) - 0 = 0 by norm_num)
    (show (3 : ℝ) - 0 ≠ 0 by norm_num)

/-- C3: for every eye/target whose view direction is non-zero and not purely
vertical, the three returned vectors are mutually orthogonal unit vectors
(dot products exactly 0, squared lengths exactly 1 in the real-valued model,
hence within any tolerance), with fixed handedness: `up = right × forward`. -/
theorem get_cam_axis_orthonormal (pos target : Vec3)
    (h : (target - pos).x ≠ 0 ∨ (target - pos).z ≠ 0) :
    ((get_cam_axis pos target).1.dot (get_cam_axis pos target).1 = 1 ∧
     (get_cam_axis pos target).2.1.dot (get_cam_axis pos target).2.1 = 1 ∧
     (get_cam_axis pos target).2.2.dot (get_cam_axis pos target).2.2 = 1) ∧
    ((get_cam_axis pos target).1.dot (get_cam_axis pos target).2.1 = 0 ∧
     (get_cam_axis pos target).1.dot (get_cam_axis pos target).2.2 = 0 ∧
     (get_cam_axis pos target).2.1.dot (get_cam_axis pos target).2.2 = 0) ∧
    (get_cam_axis pos target).2.1 =
      (get_cam_axis pos target).1.cross (get_cam_axis pos target).2.2 := by
  have hdot : 0 < (target - pos).dot (target - pos) := by
    simp only [Vec3.dot]
    rcases h with h | h
    · linarith [mul_self_pos.mpr h, mul_self_nonneg (target - pos).y,
        mul_self_nonneg (target - pos).z]
    · linarith [mul_self_pos.mpr h, mul_self_nonneg (target - pos).x,
        mul_self_nonneg (target - pos).y]
  have hL : 0 < (target - pos).length := Vec3.length_pos _ hdot
  simp only [get_cam_axis]
  set w := (target - pos).normalize_or_zero with hw
  have hwunit : w.dot w = 1 := Vec3.normalize_dot_self _ hdot
  have hwx : w.x = (1 / (target - pos).length) * (target - pos).x := by
    rw [hw, Vec3.normalize_of_pos _ hL]
    simp
  have hwz : w.z = (1 / (target - pos).length) * (target - pos).z := by
    rw [hw, Vec3.normalize_of_pos _ hL]
    simp
  have hwxz : w.x ≠ 0 ∨ w.z ≠ 0 := by
    rcases h with h | h
    · exact Or.inl (by rw [hwx]; exact mul_ne_zero (one_div_ne_zero (ne_of_gt hL)) h)
    · exact Or.inr (by rw [hwz]; exact mul_ne_zero (one_div_ne_zero (ne_of_gt hL)) h)
  set p := Vec3.mk w.x 0 w.z with hp
  have hpdot : 0 < p.dot p := by
    simp only [Vec3.dot, hp]
    rcases hwxz with h1 | h1
    · have := mul_self_pos.mpr h1
      have h2 := mul_self_nonneg w.z
      nlinarith
    · have := mul_self_pos.mpr h1
      have h2 := mul_self_nonneg w.x
      nlinarith
  have hpL : 0 < p.length := Vec3.length_pos _ hpdot
  set xz := p.normalize_or_zero with hxz
  have hxzunit : xz.dot xz = 1 := Vec3.normalize_dot_self _ hpdot
  have hxzy : xz.y = 0 := by
    rw [hxz, Vec3.normalize_of_pos _ hpL]
    simp [hp]
  have hxzx : xz.x = (1 / p.length) * w.x := by
    rw [hxz, Vec3.normalize_of_pos _ hpL]
    simp [hp]
  have hxzz : xz.z = (1 / p.length) * w.z := by
    rw [hxz, Vec3.normalize_of_pos _ hpL]
    simp [hp]
  rw [rotY_neg_half_pi_mul_vec3 xz hxzy]
  have hcx_unit : (Vec3.mk (-xz.z) 0 xz.x).dot (Vec3.mk (-xz.z) 0 xz.x) = 1 := by
    have hxzunit' : xz.x * xz.x + xz.y * xz.y + xz.z * xz.z = 1 := hxzunit
    rw [hxzy] at hxzunit'
    simp only [Vec3.dot]
    nlinarith [hxzunit']
  have hcx_w : w.dot (Vec3.mk (-xz.z) 0 xz.x) = 0 := by
    simp only [Vec3.dot, hxzx, hxzz]
    ring
  rw [rot_axis_half_pi_mul_vec3 _ w hcx_unit hcx_w]
  refine ⟨⟨hcx_unit, ?_, hwunit⟩, ⟨?_, ?_, ?_⟩, rfl⟩
  · rw [Vec3.cross_dot_cross, hcx_unit, hwunit]
    have : (Vec3.mk (-xz.z) 0 xz.x).dot w = 0 := by
      rw [Vec3.dot_comm]
      exact hcx_w
    rw [this]
    ring
  · exact Vec3.cross_dot_self_left _ _
  · rw [Vec3.dot_comm]
    exact hcx_w
  · rw [Vec3.dot_comm]
    exact Vec3.cross_dot_self_right _ _

/-- Witness for C3 at `eye = (0,10,40)`, `target = (0,0,0)` (the spec's
concrete test input). -/
theorem get_cam_axis_orthonormal_witness :
    (((get_cam_axis ⟨0, 10, 40⟩ ⟨0, 0, 0⟩).1.dot
        (get_cam_axis ⟨0, 10, 40⟩ ⟨0, 0, 0⟩).1 = 1 ∧
      (get_cam_axis ⟨0, 10, 40⟩ ⟨0, 0, 0⟩).2.1.dot
        (get_cam_axis ⟨0, 10, 40⟩ ⟨0, 0, 0⟩).2.1 = 1 ∧
      (get_cam_axis ⟨0, 10, 40⟩ ⟨0, 0, 0⟩).2.2.dot
        (get_cam_axis ⟨0, 10, 40⟩ ⟨0, 0, 0⟩).2.2 = 1) ∧
     ((get_cam_axis ⟨0, 10, 40⟩ ⟨0, 0, 0⟩).1.dot
        (get_cam_axis ⟨0, 10, 40⟩ ⟨0, 0, 0⟩).2.1 = 0 ∧
      (get_cam_axis ⟨0, 10, 40⟩ ⟨0, 0, 0⟩).1.dot
        (get_cam_axis ⟨0, 10, 40⟩ ⟨0, 0, 0⟩).2.2 = 0 ∧
      (get_cam_axis ⟨0, 10, 40⟩ ⟨0, 0, 0⟩).2.1.dot
        (get_cam_axis ⟨0, 10, 40⟩ ⟨0, 0, 0⟩).2.2 = 0) ∧
     (get_cam_axis ⟨0, 10, 40⟩ ⟨0, 0, 0⟩).2.1 =
       (get_cam_axis ⟨0, 10, 40⟩ ⟨0, 0, 0⟩).1.cross
         (get_cam_axis ⟨0, 10, 40⟩ ⟨0, 0, 0⟩).2.2) :=
  get_cam_axis_orthonormal ⟨0, 10, 40⟩ ⟨0, 0, 0⟩
    (Or.inr (show (0 : ℝ) - 40 ≠ 0 by norm_num))

/- #region NaN propagation lemmas -/

theorem F64.mul_nan_right (a : F64) : F64.mul a F64.nan = F64.nan := by
  cases a <;> rfl

theorem F64.add_nan_right (a : F64) : F64.add a F64.nan = F64.nan := by
  cases a <;> rfl

theorem F64.sub_nan_left (b : F64) : F64.sub F64.nan b = F64.nan := by
  cases b <;> rfl

theorem F64.ln_nan : F64.ln F64.nan = F64.nan := rfl

theorem F64.add_nan_left (b : F64) : F64.add F64.nan b = F64.nan := by
  cases b <;> rfl

theorem length_to_siF_nan (m : ℝ) : length_to_siF F64.nan m = F64.nan := by
  unfold length_to_siF
  rw [show F64.mul F64.nan (F64.fin NEWTON_CONSTANT) = F64.nan from rfl]
  rw [show F64.div F64.nan (F64.fin (LIGHT_SPEED * LIGHT_SPEED)) = F64.nan from rfl]
  exact F64.mul_nan_right _

/- #endregion -/

theorem F64.sub_fin (a b : ℝ) : F64.sub (F64.fin a) (F64.fin b) = F64.fin (a - b) := rfl

theorem length_to_siF_fin (v m : ℝ) :
    length_to_siF (F64.fin v) m = F64.fin (length_to_si v m) := by
  have hc : LIGHT_SPEED * LIGHT_SPEED ≠ 0 := by
    unfold LIGHT_SPEED
    norm_num
  unfold length_to_siF length_to_si
  simp [F64.mul, F64.div, hc]

/-- C8: the display stage computes, with `r = |CameraFrame.position|` and
`m = SpacetimeParams.mass`, exactly `length_to_si(2, m)`,
`length_to_si(r - 2, m)` and
`length_to_si(sqrt(r)·sqrt(r-2) + ln(r + sqrt(r)·sqrt(r-2) - 1), m)`, and
formats the three numbers into the display text; when `r < 2` the square root
yields NaN, which propagates into the third value and is rendered as-is (the
stage still produces the text, with no error). -/
theorem update_position_text_formula (fmt : F64 → String) (cam_data : CamData)
    (sp : SpacetimeParams) :
    (update_position_text fmt cam_data sp =
      "Schwarzschild radius: " ++ fmt (F64.fin (length_to_si 2 sp.mass)) ++
      "\nDifference in r from event horizon: " ++
      fmt (F64.fin (length_to_si (cam_data.cam_pos.length - 2) sp.mass)) ++
      " m\nProper distance from event horizon: " ++
      fmt (length_to_siF (F64.add
          (F64.mul (F64.sqrt (F64.fin cam_data.cam_pos.length))
            (F64.sqrt (F64.fin (cam_data.cam_pos.length - 2))))
          (F64.ln (F64.sub
            (F64.add (F64.fin cam_data.cam_pos.length)
              (F64.mul (F64.sqrt (F64.fin cam_data.cam_pos.length))
                (F64.sqrt (F64.fin (cam_data.cam_pos.length - 2)))))
            (F64.fin 1)))) sp.mass) ++ " m") ∧
    (cam_data.cam_pos.length < 2 →
      F64.sqrt (F64.fin (cam_data.cam_pos.length - 2)) = F64.nan ∧
      length_to_siF (F64.add
          (F64.mul (F64.sqrt (F64.fin cam_data.cam_pos.length))
            (F64.sqrt (F64.fin (cam_data.cam_pos.length - 2))))
          (F64.ln (F64.sub
            (F64.add (F64.fin cam_data.cam_pos.length)
              (F64.mul (F64.sqrt (F64.fin cam_data.cam_pos.length))
                (F64.sqrt (F64.fin (cam_data.cam_pos.length - 2)))))
            (F64.fin 1)))) sp.mass = F64.nan) := by
  constructor
  · simp only [update_position_text, F64.sub_fin, length_to_siF_fin]
  · intro hr
    have hneg : cam_data.cam_pos.length - 2 < 0 := by linarith
    have hsqrt : F64.sqrt (F64.fin (cam_data.cam_pos.length - 2)) = F64.nan := by
      simp [F64.sqrt, hneg]
    refine ⟨hsqrt, ?_⟩
    rw [hsqrt,
      F64.mul_nan_right (F64.sqrt (F64.fin cam_data.cam_pos.length)),
      F64.add_nan_right (F64.fin cam_data.cam_pos.length),
      F64.sub_nan_left, F64.ln_nan, F64.add_nan_left, length_to_siF_nan]

/-- Witness for C8 at camera position `(1,0,0)` (so `r = 1 < 2`), mass `1`. -/
theorem update_position_text_formula_witness :
    (Vec3.mk 1 0 0).length < 2 ∧
    (F64.sqrt (F64.fin ((Vec3.mk 1 0 0).length - 2)) = F64.nan ∧
      length_to_siF (F64.add
          (F64.mul (F64.sqrt (F64.fin (Vec3.mk 1 0 0).length))
            (F64.sqrt (F64.fin ((Vec3.mk 1 0 0).length - 2))))
          (F64.ln (F64.sub
            (F64.add (F64.fin (Vec3.mk 1 0 0).length)
              (F64.mul (F64.sqrt (F64.fin (Vec3.mk 1 0 0).length))
                (F64.sqrt (F64.fin ((Vec3.mk 1 0 0).length - 2)))))
            (F64.fin 1)))) 1 = F64.nan) := by
  have hlen : (Vec3.mk 1 0 0).length = 1 := by
    simp [Vec3.length, Vec3.dot]
  have hlt : (Vec3.mk 1 0 0).length < 2 := by
    rw [hlen]
    norm_num
  exact ⟨hlt,
    (update_position_text_formula (fun _ => "")
      ⟨⟨1, 0, 0⟩, ⟨0, 0, 0⟩, ⟨0, 0, 0⟩, ⟨0, 0, 0⟩⟩ ⟨1⟩).2 hlt⟩
